import Mathlib

/-!
Shallow embedding of the real-time affect-streaming session component
(`src/frontend/src/components/EmotionDetector.jsx`) of the NeoPulse repository.

The component's mutable React state (`status`, `emotion`, `allEmotions`,
`confidence`, `stressScore`, `fps`, `timeline`, `isMock`, `faceDetected`) and
refs (`wsRef`, `streamRef`, `frameLoopRef`, `timelineRef`) are collected into
one record `ComponentState`.  The WebSocket handlers (`onopen`, `onmessage`,
`onerror`, `onclose`), the capture loop body (`capture`), the teardown routine
(`disconnect`) and the RESET button handler are translated into pure state
transformers.  Numbers are modelled as rationals, JSON messages as an optional
record of the fields the handler reads, and JS truthiness of those fields is
made explicit.
-/

namespace NeoPulse

/-- The `status` state variable: "idle" | "connecting" | "live" | "error" | "no_face".
    (`no_face` is the spec's NoSignal state.) -/
inductive Status where
  | idle
  | connecting
  | live
  | error
  | noFace
deriving DecidableEq, Repr

/-- The readyState of the WebSocket held in `wsRef`, as far as the component
    observes it: CONNECTING, OPEN, or CLOSING/CLOSED collapsed to `closed`. -/
inductive WsState where
  | connecting
  | opened
  | closed
deriving DecidableEq, Repr

/-- One timeline entry, `{ t: data.timestamp, e: data.emotion, stress: data.stress_score || 0 }`. -/
structure Entry where
  t : ℚ
  e : String
  stress : ℚ
deriving DecidableEq, Repr

/-- A parsed inbound JSON message, holding exactly the fields `ws.onmessage`
    reads.  `none` in an `Option` field models both an absent key
    (`undefined`) and, for `emotion`, JSON `null`. -/
structure MsgData where
  type : Option String
  fps : Option ℚ
  face_detected : Option Bool
  emotion : Option String
  all_emotions : Option (List (String × ℚ))
  confidence : Option ℚ
  stress_score : Option ℚ
  mock : Option Bool
  timestamp : ℚ
deriving DecidableEq, Repr

/-- An inbound channel event: text that fails `JSON.parse` (the `catch {}`
    path), or a successfully parsed object. -/
inductive Inbound where
  | malformed
  | parsed (d : MsgData)
deriving DecidableEq, Repr

/-- JS truthiness of an optional boolean field: `undefined` and `false` are falsy. -/
def truthyB : Option Bool → Bool
  | none => false
  | some b => b

/-- JS truthiness of a `string | null` field: `null`/`undefined` and `""` are falsy. -/
def truthyS : Option String → Bool
  | none => false
  | some s => s ≠ ""

/-- The JS idiom `x || 0` on an optional numeric field (an absent field
    yields `0`; a present `0` also yields `0`). -/
def orZero : Option ℚ → ℚ
  | none => 0
  | some q => q

/-- The whole mutable state of one `EmotionDetector` component instance.
    `timeline` stands for both `timelineRef.current` and the `timeline` state
    variable, which the code always updates to the same list.  `wsAttached`
    models `wsRef.current !== null`, `streamAttached` models
    `streamRef.current !== null`, `tracksLive` whether the camera tracks have
    not been stopped, `trackStops` how many times
    `streamRef.current.getTracks().forEach(t => t.stop())` has run on live
    tracks, and `frameLoopActive` whether a `requestAnimationFrame` callback
    is currently scheduled. -/
structure ComponentState where
  status : Status
  emotion : Option String
  allEmotions : Option (List (String × ℚ))
  confidence : ℚ
  stressScore : ℚ
  fps : ℚ
  timeline : List Entry
  isMock : Bool
  faceDetected : Bool
  wsAttached : Bool
  wsState : WsState
  streamAttached : Bool
  tracksLive : Bool
  trackStops : Nat
  frameLoopActive : Bool
deriving DecidableEq, Repr

/-- The component's initial state: `useState("idle")` and friends, with all
    refs null (no socket, so `wsState` is `closed`). -/
def initialState : ComponentState where
  status := Status.idle
  emotion := none
  allEmotions := none
  confidence := 0
  stressScore := 0
  fps := 0
  timeline := []
  isMock := false
  faceDetected := false
  wsAttached := false
  wsState := WsState.closed
  streamAttached := false
  tracksLive := false
  trackStops := 0
  frameLoopActive := false

/-- JS `arr.slice(-n)`: the last `min n arr.length` elements of the array. -/
def sliceLast (n : Nat) (l : List Entry) : List Entry :=
  l.drop (l.length - n)

/-- The history append
    `timelineRef.current = [...timelineRef.current.slice(-299), entry]`. -/
def appendTimeline (tl : List Entry) (en : Entry) : List Entry :=
  sliceLast 299 tl ++ [en]

/-- One state update performed by the body of `ws.onmessage`, in the order the
    source issues them.  `notifyEmotionUpdate` is the external
    `onEmotionUpdate?.(data)` callback, which does not touch component state. -/
inductive Effect where
  | setFps (v : ℚ)
  | setFaceDetected (b : Bool)
  | setStatus (st : Status)
  | setEmotion (lbl : String)
  | setAllEmotions (m : Option (List (String × ℚ)))
  | setConfidence (c : ℚ)
  | setStressScore (v : ℚ)
  | setIsMock (b : Bool)
  | appendEntry (en : Entry)
  | notifyEmotionUpdate
deriving DecidableEq, Repr

/-- Apply one `ws.onmessage` state update to the component state. -/
def applyEffect (s : ComponentState) : Effect → ComponentState
  | Effect.setFps v => { s with fps := v }
  | Effect.setFaceDetected b => { s with faceDetected := b }
  | Effect.setStatus st => { s with status := st }
  | Effect.setEmotion lbl => { s with emotion := some lbl }
  | Effect.setAllEmotions m => { s with allEmotions := m }
  | Effect.setConfidence c => { s with confidence := c }
  | Effect.setStressScore v => { s with stressScore := v }
  | Effect.setIsMock b => { s with isMock := b }
  | Effect.appendEntry en => { s with timeline := appendTimeline s.timeline en }
  | Effect.notifyEmotionUpdate => s

/-- The ordered list of state updates `ws.onmessage` performs for one inbound
    event, translated line by line from the source:
    parse failure is swallowed by `catch {}`; `keepalive`/`pong` messages
    return early; otherwise `setFps(data.fps || 0)` runs first; a falsy
    `face_detected` sets the flag false, the status `no_face`, and returns;
    a truthy one sets the flag true and status `live`; and only a truthy
    `data.emotion` updates the classification fields and appends to the
    timeline. -/
def messageEffects : Inbound → List Effect
  | Inbound.malformed => []
  | Inbound.parsed d =>
    if d.type = some "keepalive" ∨ d.type = some "pong" then []
    else
      Effect.setFps (orZero d.fps) ::
        (if truthyB d.face_detected = false then
          [Effect.setFaceDetected false, Effect.setStatus Status.noFace]
        else
          [Effect.setFaceDetected true, Effect.setStatus Status.live] ++
            (if truthyS d.emotion = true then
              [Effect.setEmotion (d.emotion.getD ""),
               Effect.setAllEmotions d.all_emotions,
               Effect.setConfidence (orZero d.confidence),
               Effect.setStressScore (orZero d.stress_score),
               Effect.setIsMock (truthyB d.mock),
               Effect.appendEntry
                 { t := d.timestamp, e := d.emotion.getD "",
                   stress := orZero d.stress_score },
               Effect.notifyEmotionUpdate]
            else []))

/-- `ws.onmessage`: fold the message's state updates over the current state. -/
def onmessage (m : Inbound) (s : ComponentState) : ComponentState :=
  (messageEffects m).foldl applyEffect s

/-- `ws.onopen`: `setStatus("live"); startFrameLoop();` — also records the
    browser fact that the socket is now open. -/
def onopen (s : ComponentState) : ComponentState :=
  { s with status := Status.live, wsState := WsState.opened, frameLoopActive := true }

/-- `ws.onerror = () => setStatus("error")` — the browser fires `error` only
    on a failing socket, so the socket is no longer open. -/
def onerror (s : ComponentState) : ComponentState :=
  { s with status := Status.error, wsState := WsState.closed }

/-- `ws.onclose`, parameterized by the value of the `status` state variable
    captured by the handler's closure (a render-scope constant: in the render
    that created `connect` — and hence this handler — it is `"idle"`):
    `if (status !== "idle") setStatus("idle"); stopFrameLoop();`.
    It does not touch `streamRef` or `timelineRef`. -/
def onclose (captured : Status) (s : ComponentState) : ComponentState :=
  { s with
    status := if captured ≠ Status.idle then Status.idle else s.status,
    wsState := WsState.closed,
    frameLoopActive := false }

/-- The first half of `connect()` when `getUserMedia` succeeds: `setStatus("connecting")`,
    camera stream acquired into `streamRef`, then `new WebSocket(...)` is
    stored in `wsRef` with the handlers installed (socket still connecting). -/
def connectCameraOk (s : ComponentState) : ComponentState :=
  { s with
    status := Status.connecting,
    streamAttached := true,
    tracksLive := true,
    wsAttached := true,
    wsState := WsState.connecting }

/-- `connect()` when `getUserMedia` rejects: after the initial
    `setStatus("connecting")`, the catch runs `setStatus("error")` and
    returns — no WebSocket is created. -/
def connectCameraFail (s : ComponentState) : ComponentState :=
  { s with status := Status.error }

/-- `disconnect()` (the STOP button and the unmount cleanup):
    `stopFrameLoop(); wsRef.current?.close(); streamRef.current?.getTracks().forEach(t => t.stop());
    videoRef.current.srcObject = null; setStatus("idle"); setEmotion(null); setAllEmotions(null);`.
    It does not touch `timelineRef` or `timeline`. -/
def disconnect (s : ComponentState) : ComponentState :=
  { s with
    frameLoopActive := false,
    wsState := WsState.closed,
    tracksLive := false,
    trackStops := s.trackStops + (if s.streamAttached ∧ s.tracksLive then 1 else 0),
    status := Status.idle,
    emotion := none,
    allEmotions := none }

/-- The control message `JSON.stringify({ type: "reset" })`. -/
def resetControlMsg : String := "\x7b\"type\":\"reset\"\x7d"

/-- The outbound frame message `JSON.stringify({ frame: b64 })`. -/
def frameMsg (b64 : String) : String := "\x7b\"frame\":\"" ++ b64 ++ "\"\x7d"

/-- The RESET button's onClick handler:
    `wsRef.current?.send(JSON.stringify({ type: "reset" })); timelineRef.current = []; setTimeline([]);`.
    Per the WebSocket specification, `send` on an attached socket still in
    CONNECTING throws an `InvalidStateError`, which aborts the handler before
    the timeline is cleared; on an OPEN socket the message is transmitted; on
    a CLOSING/CLOSED socket `send` silently discards the data; and with no
    socket attached the optional chaining skips the call.  Returns the new
    state and the message actually transmitted on the channel. -/
def resetAction (s : ComponentState) : ComponentState × Option String :=
  if s.wsAttached = true ∧ s.wsState = WsState.connecting then
    (s, none)
  else
    ({ s with timeline := [] },
     if s.wsAttached = true ∧ s.wsState = WsState.opened then some resetControlMsg
     else none)

/-- Whether the RESET control is rendered and invocable: the controls row
    shows START when `status === "idle"` and RESET/STOP otherwise. -/
def resetAvailable (st : Status) : Bool := st ≠ Status.idle

/-- Result of one capture-loop tick: the new component state, the payloads
    sent on the socket, and how many frames were encoded. -/
structure TickResult where
  state : ComponentState
  sent : List String
  encodes : Nat
deriving DecidableEq, Repr

/-- One run of `capture()` in the frame loop.  `blobOk` is whether
    `canvas.toBlob` produced a blob, `b64` the base64 payload the FileReader
    yields.  If `wsRef` is null or not OPEN the function returns at once:
    nothing is drawn or encoded, nothing is sent or queued, and — since the
    `requestAnimationFrame(capture)` re-arm is skipped — the loop is not
    rescheduled.  Otherwise the frame is drawn and encoded (one `toBlob`
    invocation), the send happens behind a second readyState check, and the
    loop is re-armed. -/
def captureTick (s : ComponentState) (blobOk : Bool) (b64 : String) : TickResult :=
  if s.wsAttached = true ∧ s.wsState = WsState.opened then
    { state := { s with frameLoopActive := true },
      sent := if blobOk = true then
                (if s.wsState = WsState.opened then [frameMsg b64] else [])
              else [],
      encodes := 1 }
  else
    { state := { s with frameLoopActive := false },
      sent := [],
      encodes := 0 }

/-- One scheduler-level step of the component: a button press, a WebSocket
    event, or one capture-loop tick.  The guards record when each event can
    fire (which buttons are rendered, which socket callbacks the browser can
    deliver in which socket state). -/
inductive Step : ComponentState → ComponentState → Prop where
  | startOk (s : ComponentState) :
      s.status = Status.idle → Step s (connectCameraOk s)
  | startCamFail (s : ComponentState) :
      s.status = Status.idle → Step s (connectCameraFail s)
  | wsOpened (s : ComponentState) :
      s.wsAttached = true → s.wsState = WsState.connecting → Step s (onopen s)
  | wsMessage (s : ComponentState) (m : Inbound) :
      s.wsState = WsState.opened → Step s (onmessage m s)
  | wsError (s : ComponentState) :
      s.wsAttached = true → Step s (onerror s)
  | wsClosed (s : ComponentState) (captured : Status) :
      s.wsAttached = true → Step s (onclose captured s)
  | stopClick (s : ComponentState) :
      Step s (disconnect s)
  | resetClick (s : ComponentState) :
      s.status ≠ Status.idle → Step s (resetAction s).1
  | tick (s : ComponentState) (blobOk : Bool) (b64 : String) :
      s.frameLoopActive = true → Step s (captureTick s blobOk b64).state

/-- States the component can actually be in, starting from `initialState`. -/
inductive Reachable : ComponentState → Prop where
  | init : Reachable initialState
  | step {s s' : ComponentState} : Reachable s → Step s s' → Reachable s'

/-- A pure-append history run: the timeline obtained by feeding a sequence of
    entries through the source's append, starting from the empty buffer. -/
def historyOf (entries : List Entry) : List Entry :=
  entries.foldl appendTimeline []

/-- The session-stats accumulation `timeline.reduce((a, b) => a + b.stress, 0)`. -/
def stressSum (tl : List Entry) : ℚ :=
  tl.foldl (fun a b => a + b.stress) 0

/-- The underlying AVG STRESS statistic `timeline.reduce(...) / timeline.length`. -/
def avgStress (tl : List Entry) : ℚ :=
  stressSum tl / tl.length

/-- JS `Math.round`: round half toward positive infinity. -/
def jsRound (q : ℚ) : ℤ := ⌊q + 1 / 2⌋

/-- The displayed AVG STRESS value,
    `Math.round(timeline.reduce((a, b) => a + b.stress, 0) / timeline.length * 100)`. -/
def avgStressPct (tl : List Entry) : ℤ :=
  jsRound (stressSum tl / tl.length * 100)

/-- The FRAMES statistic, `timeline.length`. -/
def framesCount (tl : List Entry) : Nat := tl.length

/-- One step of `counts[t.e] = (counts[t.e] || 0) + 1` on a JS object,
    modelled as an insertion-ordered association list (the emotion labels are
    non-integer-like string keys, so JS object key order is insertion order). -/
def bump : List (String × Nat) → String → List (String × Nat)
  | [], k => [(k, 1)]
  | (k', v) :: rest, k =>
    if k' = k then (k', v + 1) :: rest else (k', v) :: bump rest k

/-- The TOP STATE tally `timeline.forEach(t => counts[t.e] = (counts[t.e] || 0) + 1)`. -/
def countsOf (tl : List Entry) : List (String × Nat) :=
  tl.foldl (fun m t0 => bump m t0.e) []

/-- Insert an entry into a list already sorted by descending count, before
    the first element whose count does not exceed it. -/
def insertDesc (x : String × Nat) : List (String × Nat) → List (String × Nat)
  | [] => [x]
  | y :: ys => if y.2 ≤ x.2 then x :: y :: ys else y :: insertDesc x ys

/-- Model of `Object.entries(counts).sort((a, b) => b[1] - a[1])`: a stable
    sort (ES2019 `Array.prototype.sort` is stable) by descending count,
    realized as a stable insertion sort. -/
def sortDesc : List (String × Nat) → List (String × Nat)
  | [] => []
  | x :: xs => insertDesc x (sortDesc xs)

/-- The first entry of maximal count in list order (what the head of a stable
    descending sort yields). -/
def firstMaxEntry : List (String × Nat) → Option (String × Nat)
  | [] => none
  | x :: xs =>
    match firstMaxEntry xs with
    | none => some x
    | some y => if y.2 ≤ x.2 then some x else some y

/-- The TOP STATE label before display formatting:
    `Object.entries(counts).sort((a, b) => b[1] - a[1])[0]?.[0]`. -/
def topState (tl : List Entry) : Option String :=
  (sortDesc (countsOf tl)).head?.map Prod.fst

/-- The displayed TOP STATE string, `...?.slice(0, 4).toUpperCase() || "—"`. -/
def topStateDisplay (tl : List Entry) : String :=
  match topState tl with
  | none => "—"
  | some lbl => if (lbl.take 4).toUpper = "" then "—" else (lbl.take 4).toUpper

/-- Lookup of a key's tally in the association list (`counts[k] || 0`);
    proof-side helper. -/
def cnt : List (String × Nat) → String → Nat
  | [], _ => 0
  | (k', v) :: rest, k => if k' = k then v else cnt rest k

/-- Whether a key is present in the association list; proof-side helper. -/
def keyIn : List (String × Nat) → String → Bool
  | [], _ => false
  | (k', _) :: rest, k => if k' = k then true else keyIn rest k

/-- Index of the first occurrence of a label in a label list; spec-side
    formalization of "first-encountered in insertion order". -/
def firstIdx (x : String) : List String → Nat
  | [] => 0
  | y :: ys => if y = x then 0 else firstIdx x ys + 1

/-- A sample classification message: face detected, emotion "calm". -/
def msgCalm : MsgData where
  type := none
  fps := some 5
  face_detected := some true
  emotion := some "calm"
  all_emotions := some [("calm", 9 / 10)]
  confidence := some (9 / 10)
  stress_score := some (1 / 5)
  mock := some false
  timestamp := 100

/-- A sample malformed-but-parseable message: the JSON object `\x7b\x7d`,
    with every field absent. -/
def emptyMsg : MsgData where
  type := none
  fps := none
  face_detected := none
  emotion := none
  all_emotions := none
  confidence := none
  stress_score := none
  mock := none
  timestamp := 0

/-- A sample timeline entry. -/
def sampleEntry : Entry where
  t := 1
  e := "calm"
  stress := 1 / 5

/-- A sample mid-session state: live, camera held, socket open, one sample
    in History. -/
def sampleLiveState : ComponentState where
  status := Status.live
  emotion := some "calm"
  allEmotions := some [("calm", 9 / 10)]
  confidence := 9 / 10
  stressScore := 1 / 5
  fps := 5
  timeline := [sampleEntry]
  isMock := false
  faceDetected := true
  wsAttached := true
  wsState := WsState.opened
  streamAttached := true
  tracksLive := true
  trackStops := 0
  frameLoopActive := true

/-- The state right after a successful start and channel open. -/
def stateAfterOpen : ComponentState :=
  onopen (connectCameraOk initialState)

/-- A sample three-entry timeline for evaluating the aggregates. -/
def sampleTimeline : List Entry :=
  [{ t := 1, e := "calm", stress := 1 / 5 },
   { t := 2, e := "stressed", stress := 4 / 5 },
   { t := 3, e := "calm", stress := 2 / 5 }]

/-- A message with a detected face but no `emotion` field. -/
def msgFaceOnly : MsgData :=
  { emptyMsg with face_detected := some true, fps := some 7 }

/-- Whether a `ws.onmessage` state update is the rate-metric (`fps`) update. -/
def isFpsUpdate : Effect → Bool
  | Effect.setFps _ => true
  | _ => false

/-- Whether a `ws.onmessage` state update is the `faceDetected` flag update. -/
def isFlagUpdate : Effect → Bool
  | Effect.setFaceDetected _ => true
  | _ => false

/-- A connecting-phase state (camera held, socket created but still in the
    WebSocket handshake) with one entry already in History — e.g. right after
    a stop/start cycle, since `stop` does not clear History. -/
def sampleConnectingBusy : ComponentState where
  status := Status.connecting
  emotion := none
  allEmotions := none
  confidence := 0
  stressScore := 0
  fps := 0
  timeline := [sampleEntry]
  isMock := false
  faceDetected := false
  wsAttached := true
  wsState := WsState.connecting
  streamAttached := true
  tracksLive := true
  trackStops := 0
  frameLoopActive := false

/-! ## Helper lemmas: the four behaviours of `ws.onmessage` -/

/-- Unparseable text is swallowed by the `catch \x7b\x7d`: no state change. -/
theorem onmessage_malformed (s : ComponentState) :
    onmessage Inbound.malformed s = s := rfl

/-- A `keepalive`/`pong` message returns before any state update. -/
theorem onmessage_keepalive (s : ComponentState) (d : MsgData)
    (hk : d.type = some "keepalive" ∨ d.type = some "pong") :
    onmessage (Inbound.parsed d) s = s := by
  simp only [onmessage, messageEffects]
  rw [if_pos hk]
  rfl

/-- A non-keepalive message with falsy `face_detected` updates `fps`, clears
    the flag, and moves to `no_face` — nothing else. -/
theorem onmessage_noface (s : ComponentState) (d : MsgData)
    (hk : ¬(d.type = some "keepalive" ∨ d.type = some "pong"))
    (hf : truthyB d.face_detected = false) :
    onmessage (Inbound.parsed d) s =
      { s with fps := orZero d.fps, faceDetected := false,
               status := Status.noFace } := by
  simp only [onmessage, messageEffects]
  rw [if_neg hk, if_pos hf]
  rfl

/-- A non-keepalive message with a detected face but falsy `emotion` updates
    `fps`, sets the flag, and moves to `live` — nothing else. -/
theorem onmessage_face_noemotion (s : ComponentState) (d : MsgData)
    (hk : ¬(d.type = some "keepalive" ∨ d.type = some "pong"))
    (hf : truthyB d.face_detected = true)
    (he : truthyS d.emotion = false) :
    onmessage (Inbound.parsed d) s =
      { s with fps := orZero d.fps, faceDetected := true,
               status := Status.live } := by
  simp only [onmessage, messageEffects]
  rw [if_neg hk, if_neg (by simp [hf]), if_neg (by simp [he])]
  rfl

/-- A non-keepalive message with a detected face and a truthy `emotion`
    updates `fps`, the flag, the status, the classification fields, and
    appends one entry to the timeline. -/
theorem onmessage_face_emotion (s : ComponentState) (d : MsgData)
    (hk : ¬(d.type = some "keepalive" ∨ d.type = some "pong"))
    (hf : truthyB d.face_detected = true)
    (he : truthyS d.emotion = true) :
    onmessage (Inbound.parsed d) s =
      { s with fps := orZero d.fps, faceDetected := true,
               status := Status.live,
               emotion := some (d.emotion.getD ""),
               allEmotions := d.all_emotions,
               confidence := orZero d.confidence,
               stressScore := orZero d.stress_score,
               isMock := truthyB d.mock,
               timeline := appendTimeline s.timeline
                 { t := d.timestamp, e := d.emotion.getD "",
                   stress := orZero d.stress_score } } := by
  simp only [onmessage, messageEffects]
  rw [if_neg hk, if_neg (by simp [hf]), if_pos he]
  rfl

/-- Boolean dichotomy helper. -/
theorem bool_true_of_not_false {b : Bool} (h : ¬ b = false) : b = true := by
  cases hb : b
  · exact absurd hb h
  · rfl

/-! ## C1 — unexpected channel close -/

/-- C1, counterexample: from a Live state with the camera held, the
    unexpected-close handler (`ws.onclose`, whose closure captured the
    `status` value `"idle"` of the render that created it) performs **zero**
    track-stops — the CaptureHandle is *not* released, let alone exactly
    once — and it does not even move the status to Idle. -/
theorem c1_counterexample :
    (onclose Status.idle sampleLiveState).trackStops = 0 ∧
    (onclose Status.idle sampleLiveState).tracksLive = true ∧
    (onclose Status.idle sampleLiveState).status = Status.live := by
  decide

/-- C1, amended: if the channel closes without a prior explicit `stop()`
    while the session is Live or NoSignal, the handler cancels the frame loop
    and preserves History, but it releases nothing (no track-stop runs, the
    camera tracks stay live), and it sets the status to Idle only when the
    `status` value captured by its closure is not already `idle`. -/
theorem c1_amended (captured : Status) (s : ComponentState)
    (h : s.status = Status.live ∨ s.status = Status.noFace) :
    (onclose captured s).frameLoopActive = false ∧
    (onclose captured s).timeline = s.timeline ∧
    (onclose captured s).trackStops = s.trackStops ∧
    (onclose captured s).tracksLive = s.tracksLive ∧
    (onclose captured s).status =
      (if captured ≠ Status.idle then Status.idle else s.status) :=
  ⟨rfl, rfl, rfl, rfl, rfl⟩

/-- C1 witness: the amended statement at a concrete Live state. -/
theorem c1_amended_witness :
    (sampleLiveState.status = Status.live ∨ sampleLiveState.status = Status.noFace) ∧
    ((onclose Status.idle sampleLiveState).frameLoopActive = false ∧
     (onclose Status.idle sampleLiveState).timeline = sampleLiveState.timeline ∧
     (onclose Status.idle sampleLiveState).trackStops = sampleLiveState.trackStops ∧
     (onclose Status.idle sampleLiveState).tracksLive = sampleLiveState.tracksLive ∧
     (onclose Status.idle sampleLiveState).status =
       (if Status.idle ≠ Status.idle then Status.idle else sampleLiveState.status)) :=
  ⟨Or.inl rfl, c1_amended Status.idle sampleLiveState (Or.inl rfl)⟩

/-! ## C2 — malformed inbound messages -/

/-- C2, counterexample: the JSON object with no fields (missing
    `face_detected`, non-keepalive) does **not** leave the session state
    unchanged: from a Live state it moves the status to `no_face`. -/
theorem c2_counterexample :
    (onmessage (Inbound.parsed emptyMsg) sampleLiveState).status = Status.noFace ∧
    sampleLiveState.status = Status.live ∧
    ¬ onmessage (Inbound.parsed emptyMsg) sampleLiveState = sampleLiveState := by
  decide

/-- C2, amended: non-JSON text leaves the state entirely unchanged; a JSON
    object missing `face_detected` on a non-keepalive message leaves the
    latest classification sample and History unchanged, but is treated as a
    no-face frame: it updates the rate metric and moves the session to
    NoSignal. -/
theorem c2_amended (s : ComponentState) (d : MsgData)
    (hk : ¬(d.type = some "keepalive" ∨ d.type = some "pong"))
    (hf : d.face_detected = none) :
    onmessage Inbound.malformed s = s ∧
    onmessage (Inbound.parsed d) s =
      { s with fps := orZero d.fps, faceDetected := false,
               status := Status.noFace } ∧
    (onmessage (Inbound.parsed d) s).timeline = s.timeline ∧
    (onmessage (Inbound.parsed d) s).emotion = s.emotion ∧
    (onmessage (Inbound.parsed d) s).confidence = s.confidence ∧
    (onmessage (Inbound.parsed d) s).stressScore = s.stressScore := by
  have hb : truthyB d.face_detected = false := by rw [hf]; rfl
  rw [onmessage_noface s d hk hb]
  exact ⟨rfl, rfl, rfl, rfl, rfl, rfl⟩

/-- C2 witness: the amended statement at a concrete Live state and the
    concrete message `\x7b\x7d`. -/
theorem c2_amended_witness :
    (¬(emptyMsg.type = some "keepalive" ∨ emptyMsg.type = some "pong")) ∧
    emptyMsg.face_detected = none ∧
    (onmessage Inbound.malformed sampleLiveState = sampleLiveState ∧
     onmessage (Inbound.parsed emptyMsg) sampleLiveState =
       { sampleLiveState with fps := orZero emptyMsg.fps, faceDetected := false,
                              status := Status.noFace } ∧
     (onmessage (Inbound.parsed emptyMsg) sampleLiveState).timeline = sampleLiveState.timeline ∧
     (onmessage (Inbound.parsed emptyMsg) sampleLiveState).emotion = sampleLiveState.emotion ∧
     (onmessage (Inbound.parsed emptyMsg) sampleLiveState).confidence = sampleLiveState.confidence ∧
     (onmessage (Inbound.parsed emptyMsg) sampleLiveState).stressScore = sampleLiveState.stressScore) :=
  ⟨by decide, rfl, c2_amended sampleLiveState emptyMsg (by decide) rfl⟩

/-! ## C4 — stop() from any state -/

/-- C4: `disconnect()` (the STOP button / teardown), invoked from any state,
    always leaves the session Idle with the capture loop cancelled, the
    channel closed, and the camera tracks stopped, and it does not clear
    History. -/
theorem c4_stop_any_state (s : ComponentState) :
    (disconnect s).status = Status.idle ∧
    (disconnect s).frameLoopActive = false ∧
    (disconnect s).wsState = WsState.closed ∧
    (disconnect s).tracksLive = false ∧
    (disconnect s).timeline = s.timeline :=
  ⟨rfl, rfl, rfl, rfl, rfl⟩

/-! ## C6 — state between channel open and first message -/

/-- C6, counterexample: immediately after the channel signals open — with no
    inbound message processed — the session status is already `live`, not
    `connecting`: `ws.onopen` runs `setStatus("live")` unconditionally. -/
theorem c6_counterexample :
    (connectCameraOk initialState).status = Status.connecting ∧
    stateAfterOpen.status = Status.live ∧
    Status.live ≠ Status.connecting := by
  decide

/-- C6, amended: once the channel signals open the session immediately
    reports Live (before any inbound message has arrived); each subsequent
    inbound classification message then sets Live or NoSignal according to
    its `faceDetected` flag. -/
theorem c6_amended (s : ComponentState) (d : MsgData)
    (hk : ¬(d.type = some "keepalive" ∨ d.type = some "pong")) :
    (onopen s).status = Status.live ∧
    (onmessage (Inbound.parsed d) (onopen s)).status =
      (if truthyB d.face_detected = true then Status.live else Status.noFace) := by
  refine ⟨rfl, ?_⟩
  by_cases hf : truthyB d.face_detected = false
  · rw [onmessage_noface (onopen s) d hk hf, if_neg (by simp [hf])]
  · have hf' := bool_true_of_not_false hf
    rw [if_pos hf']
    by_cases he : truthyS d.emotion = true
    · rw [onmessage_face_emotion (onopen s) d hk hf' he]
    · have he' : truthyS d.emotion = false := by
        cases hb : truthyS d.emotion
        · rfl
        · exact absurd hb he
      rw [onmessage_face_noemotion (onopen s) d hk hf' he']

/-- C6 witness: the amended statement at the freshly opened session and the
    concrete message `msgCalm`. -/
theorem c6_amended_witness :
    (¬(msgCalm.type = some "keepalive" ∨ msgCalm.type = some "pong")) ∧
    ((onopen stateAfterOpen).status = Status.live ∧
     (onmessage (Inbound.parsed msgCalm) (onopen stateAfterOpen)).status =
       (if truthyB msgCalm.face_detected = true then Status.live else Status.noFace)) :=
  ⟨by decide, c6_amended stateAfterOpen msgCalm (by decide)⟩

/-! ## C7 — capture-loop tick with the channel not open -/

/-- C7: on a capture-loop tick where the WebSocket is not attached-and-OPEN,
    the tick is skipped entirely: nothing is sent, nothing is encoded,
    nothing is queued, and the only state change is that the loop is not
    re-armed. -/
theorem c7_tick_skip (s : ComponentState) (blobOk : Bool) (b64 : String)
    (h : ¬(s.wsAttached = true ∧ s.wsState = WsState.opened)) :
    (captureTick s blobOk b64).sent = [] ∧
    (captureTick s blobOk b64).encodes = 0 ∧
    (captureTick s blobOk b64).state = { s with frameLoopActive := false } := by
  unfold captureTick
  rw [if_neg h]
  exact ⟨rfl, rfl, rfl⟩

/-- C7 witness: a tick in the connecting phase (socket attached but not yet
    open) transmits nothing and encodes nothing. -/
theorem c7_tick_skip_witness :
    (¬((connectCameraOk initialState).wsAttached = true ∧
       (connectCameraOk initialState).wsState = WsState.opened)) ∧
    ((captureTick (connectCameraOk initialState) true "AAAA").sent = [] ∧
     (captureTick (connectCameraOk initialState) true "AAAA").encodes = 0 ∧
     (captureTick (connectCameraOk initialState) true "AAAA").state =
       { connectCameraOk initialState with frameLoopActive := false }) :=
  ⟨by decide, c7_tick_skip (connectCameraOk initialState) true "AAAA" (by decide)⟩

/-! ## C8 — reset() -/

/-- The RESET handler never changes the status or the socket state, whether
    or not the `send` call throws. -/
theorem resetAction_status_wsState (s : ComponentState) :
    (resetAction s).1.status = s.status ∧ (resetAction s).1.wsState = s.wsState := by
  unfold resetAction
  by_cases h : s.wsAttached = true ∧ s.wsState = WsState.connecting
  · rw [if_pos h]
    exact ⟨rfl, rfl⟩
  · rw [if_neg h]
    exact ⟨rfl, rfl⟩

/-- C8, counterexample: the RESET control is rendered (hence invocable)
    whenever the status is not `idle`, including the `error` state — which is
    neither Live nor NoSignal — so reset is not "only valid while Live or
    NoSignal"; moreover, in the Connecting phase (socket attached, handshake
    not complete, one entry in History) it is also invocable, yet there
    `send` throws `InvalidStateError` before the clear: History is NOT
    cleared to length 0 and no control message reaches the peer. -/
theorem c8_counterexample :
    resetAvailable Status.error = true ∧
    ¬(Status.error = Status.live ∨ Status.error = Status.noFace) ∧
    resetAvailable sampleConnectingBusy.status = true ∧
    (resetAction sampleConnectingBusy).1.timeline ≠ [] ∧
    (resetAction sampleConnectingBusy).2 = none := by
  decide

/-- C8, amended: reset is available whenever the session is not Idle (not
    only in Live/NoSignal).  Unless the socket is attached and still
    CONNECTING, invoking it clears History to length 0, leaves the session
    state unchanged, and does not tear down the connection, the capture
    device, or the frame loop; the control message `\x7b"type":"reset"\x7d`
    is transmitted to the peer exactly when the socket is attached and OPEN.
    On an attached CONNECTING socket, `send` throws `InvalidStateError`
    before the clear: the state is entirely unchanged and nothing is sent. -/
theorem c8_amended (s : ComponentState) (h : s.status ≠ Status.idle) :
    resetAvailable s.status = true ∧
    (¬(s.wsAttached = true ∧ s.wsState = WsState.connecting) →
      (resetAction s).1.timeline = [] ∧
      (resetAction s).1.status = s.status ∧
      (resetAction s).1.wsState = s.wsState ∧
      (resetAction s).1.wsAttached = s.wsAttached ∧
      (resetAction s).1.tracksLive = s.tracksLive ∧
      (resetAction s).1.trackStops = s.trackStops ∧
      (resetAction s).1.frameLoopActive = s.frameLoopActive) ∧
    ((resetAction s).2 = some resetControlMsg ↔
      s.wsAttached = true ∧ s.wsState = WsState.opened) ∧
    (s.wsAttached = true ∧ s.wsState = WsState.connecting →
      (resetAction s).1 = s ∧ (resetAction s).2 = none) := by
  refine ⟨?_, ?_, ?_, ?_⟩
  · simp [resetAvailable, h]
  · intro hnc
    unfold resetAction
    rw [if_neg hnc]
    exact ⟨rfl, rfl, rfl, rfl, rfl, rfl, rfl⟩
  · unfold resetAction
    by_cases hc : s.wsAttached = true ∧ s.wsState = WsState.connecting
    · rw [if_pos hc]
      constructor
      · intro hsome
        exact Option.noConfusion hsome
      · rintro ⟨_, ho⟩
        exact absurd (hc.2.symm.trans ho) (by decide)
    · rw [if_neg hc]
      by_cases ho : s.wsAttached = true ∧ s.wsState = WsState.opened
      · rw [if_pos ho]
        exact ⟨fun _ => ho, fun _ => rfl⟩
      · rw [if_neg ho]
        constructor
        · intro hsome
          exact Option.noConfusion hsome
        · intro hh
          exact absurd hh ho
  · intro hc
    unfold resetAction
    rw [if_pos hc]
    exact ⟨rfl, rfl⟩

/-- C8 witness: the amended statement at a concrete Live state with an open
    socket, where the clear happens and the control message is sent. -/
theorem c8_amended_witness :
    sampleLiveState.status ≠ Status.idle ∧
    (resetAvailable sampleLiveState.status = true ∧
     (¬(sampleLiveState.wsAttached = true ∧
        sampleLiveState.wsState = WsState.connecting) →
       (resetAction sampleLiveState).1.timeline = [] ∧
       (resetAction sampleLiveState).1.status = sampleLiveState.status ∧
       (resetAction sampleLiveState).1.wsState = sampleLiveState.wsState ∧
       (resetAction sampleLiveState).1.wsAttached = sampleLiveState.wsAttached ∧
       (resetAction sampleLiveState).1.tracksLive = sampleLiveState.tracksLive ∧
       (resetAction sampleLiveState).1.trackStops = sampleLiveState.trackStops ∧
       (resetAction sampleLiveState).1.frameLoopActive = sampleLiveState.frameLoopActive) ∧
     ((resetAction sampleLiveState).2 = some resetControlMsg ↔
       sampleLiveState.wsAttached = true ∧
       sampleLiveState.wsState = WsState.opened) ∧
     (sampleLiveState.wsAttached = true ∧
      sampleLiveState.wsState = WsState.connecting →
       (resetAction sampleLiveState).1 = sampleLiveState ∧
       (resetAction sampleLiveState).2 = none)) :=
  ⟨by decide, c8_amended sampleLiveState (by decide)⟩

/-! ## C10 — face detected but no emotion label -/

/-- C10: a well-formed non-keepalive message with truthy `face_detected` but
    absent/null `emotion` moves the session to Live and updates the rate
    metric, but appends nothing to History and leaves the latest
    classification sample, confidence, and intensity score unchanged; and in
    general, History is only appended to by messages whose `emotion` field is
    truthy. -/
theorem c10_face_no_emotion (s : ComponentState) (d : MsgData)
    (hk : ¬(d.type = some "keepalive" ∨ d.type = some "pong"))
    (hf : truthyB d.face_detected = true)
    (he : d.emotion = none) :
    (onmessage (Inbound.parsed d) s).status = Status.live ∧
    (onmessage (Inbound.parsed d) s).faceDetected = true ∧
    (onmessage (Inbound.parsed d) s).fps = orZero d.fps ∧
    (onmessage (Inbound.parsed d) s).timeline = s.timeline ∧
    (onmessage (Inbound.parsed d) s).emotion = s.emotion ∧
    (onmessage (Inbound.parsed d) s).confidence = s.confidence ∧
    (onmessage (Inbound.parsed d) s).stressScore = s.stressScore ∧
    (∀ d2 : MsgData, truthyS d2.emotion = false →
      (onmessage (Inbound.parsed d2) s).timeline = s.timeline) := by
  have he' : truthyS d.emotion = false := by rw [he]; rfl
  rw [onmessage_face_noemotion s d hk hf he']
  refine ⟨rfl, rfl, rfl, rfl, rfl, rfl, rfl, ?_⟩
  intro d2 he2
  by_cases hk2 : d2.type = some "keepalive" ∨ d2.type = some "pong"
  · rw [onmessage_keepalive s d2 hk2]
  · by_cases hf2 : truthyB d2.face_detected = false
    · rw [onmessage_noface s d2 hk2 hf2]
    · rw [onmessage_face_noemotion s d2 hk2 (bool_true_of_not_false hf2) he2]

/-- C10 witness: the statement at a concrete Live state and the concrete
    message with `face_detected: true` and no `emotion`. -/
theorem c10_face_no_emotion_witness :
    (¬(msgFaceOnly.type = some "keepalive" ∨ msgFaceOnly.type = some "pong")) ∧
    truthyB msgFaceOnly.face_detected = true ∧
    msgFaceOnly.emotion = none ∧
    ((onmessage (Inbound.parsed msgFaceOnly) sampleLiveState).status = Status.live ∧
     (onmessage (Inbound.parsed msgFaceOnly) sampleLiveState).faceDetected = true ∧
     (onmessage (Inbound.parsed msgFaceOnly) sampleLiveState).fps = orZero msgFaceOnly.fps ∧
     (onmessage (Inbound.parsed msgFaceOnly) sampleLiveState).timeline = sampleLiveState.timeline ∧
     (onmessage (Inbound.parsed msgFaceOnly) sampleLiveState).emotion = sampleLiveState.emotion ∧
     (onmessage (Inbound.parsed msgFaceOnly) sampleLiveState).confidence = sampleLiveState.confidence ∧
     (onmessage (Inbound.parsed msgFaceOnly) sampleLiveState).stressScore = sampleLiveState.stressScore ∧
     (∀ d2 : MsgData, truthyS d2.emotion = false →
       (onmessage (Inbound.parsed d2) sampleLiveState).timeline = sampleLiveState.timeline)) :=
  ⟨by decide, by decide, rfl,
   c10_face_no_emotion sampleLiveState msgFaceOnly (by decide) (by decide) rfl⟩

/-! ## C3 — History ring buffer bound -/

/-- One source append turns "the last 300 of `l`" into "the last 300 of
    `l ++ [en]`". -/
theorem appendTimeline_sliceLast (l : List Entry) (en : Entry) :
    appendTimeline (sliceLast 300 l) en = sliceLast 300 (l ++ [en]) := by
  unfold appendTimeline sliceLast
  rw [List.drop_drop, List.length_drop, List.drop_append_eq_append_drop]
  have h2 : (l.length + 1 - 300) - l.length = 0 := by omega
  rw [List.length_append, List.length_singleton, h2, List.drop_zero]
  have h3 : l.length - 300 + (l.length - (l.length - 300) - 299) =
      l.length + 1 - 300 := by omega
  rw [h3]

/-- The fold of the source append over any entry sequence is exactly the last
    300 entries of that sequence. -/
theorem historyOf_eq (entries : List Entry) :
    historyOf entries = sliceLast 300 entries := by
  induction entries using List.reverseRecOn with
  | nil => rfl
  | append_singleton l en ih =>
    unfold historyOf at ih ⊢
    rw [List.foldl_append, List.foldl_cons, List.foldl_nil, ih,
      appendTimeline_sliceLast]

/-- C3: the History buffer never exceeds 300 entries, and after any sequence
    of appends it holds exactly the last 300 appended samples in arrival
    order (oldest evicted first); moreover every inbound message either
    leaves the timeline alone or performs exactly one such append. -/
theorem c3_history_bound (entries : List Entry) (m : Inbound) (s : ComponentState) :
    historyOf entries = sliceLast 300 entries ∧
    (historyOf entries).length ≤ 300 ∧
    ((onmessage m s).timeline = s.timeline ∨
     ∃ en, (onmessage m s).timeline = appendTimeline s.timeline en) := by
  refine ⟨historyOf_eq entries, ?_, ?_⟩
  · rw [historyOf_eq entries]
    unfold sliceLast
    rw [List.length_drop]
    omega
  · cases m with
    | malformed => exact Or.inl rfl
    | parsed d =>
      by_cases hk : d.type = some "keepalive" ∨ d.type = some "pong"
      · rw [onmessage_keepalive s d hk]; exact Or.inl rfl
      · by_cases hf : truthyB d.face_detected = false
        · rw [onmessage_noface s d hk hf]; exact Or.inl rfl
        · have hf' := bool_true_of_not_false hf
          by_cases he : truthyS d.emotion = true
          · rw [onmessage_face_emotion s d hk hf' he]
            exact Or.inr ⟨_, rfl⟩
          · have he' : truthyS d.emotion = false := by
              cases hb : truthyS d.emotion
              · rfl
              · exact absurd hb he
            rw [onmessage_face_noemotion s d hk hf' he']
            exact Or.inl rfl

/-! ## C5 — Live/NoSignal discipline -/

set_option maxRecDepth 4096 in
/-- No `ws.onmessage` state update touches the socket state. -/
theorem foldl_applyEffect_wsState (effs : List Effect) (s : ComponentState) :
    (effs.foldl applyEffect s).wsState = s.wsState := by
  induction effs generalizing s with
  | nil => rfl
  | cons e0 es ih =>
    rw [List.foldl_cons, ih]
    cases e0 <;> rfl

/-- After any inbound message, the status is either unchanged, `live`, or
    `no_face`. -/
theorem onmessage_status_cases (m : Inbound) (s : ComponentState) :
    (onmessage m s).status = s.status ∨ (onmessage m s).status = Status.live ∨
    (onmessage m s).status = Status.noFace := by
  cases m with
  | malformed => exact Or.inl rfl
  | parsed d =>
    by_cases hk : d.type = some "keepalive" ∨ d.type = some "pong"
    · rw [onmessage_keepalive s d hk]; exact Or.inl rfl
    · by_cases hf : truthyB d.face_detected = false
      · rw [onmessage_noface s d hk hf]; exact Or.inr (Or.inr rfl)
      · have hf' := bool_true_of_not_false hf
        by_cases he : truthyS d.emotion = true
        · rw [onmessage_face_emotion s d hk hf' he]; exact Or.inr (Or.inl rfl)
        · have he' : truthyS d.emotion = false := by
            cases hb : truthyS d.emotion
            · rfl
            · exact absurd hb he
          rw [onmessage_face_noemotion s d hk hf' he']
          exact Or.inr (Or.inl rfl)

/-- A capture-loop tick never changes the status or the socket state. -/
theorem captureTick_status_wsState (s : ComponentState) (blobOk : Bool) (b64 : String) :
    (captureTick s blobOk b64).state.status = s.status ∧
    (captureTick s blobOk b64).state.wsState = s.wsState := by
  unfold captureTick
  by_cases h : s.wsAttached = true ∧ s.wsState = WsState.opened
  · rw [if_pos h]; exact ⟨rfl, rfl⟩
  · rw [if_neg h]; exact ⟨rfl, rfl⟩

/-- Invariant of every reachable state: while the socket is open, the status
    is `live` or `no_face` (and hence never `idle`, `connecting`, or
    `error`). -/
theorem reachable_open_status {s : ComponentState} (hr : Reachable s) :
    s.wsState = WsState.opened → s.status = Status.live ∨ s.status = Status.noFace := by
  induction hr with
  | init => intro h; exact absurd h (by decide)
  | @step s s' hr hs ih =>
    cases hs with
    | startOk hidle =>
      intro h
      exact absurd h (by simp [connectCameraOk])
    | startCamFail hidle =>
      intro h
      exfalso
      have h' : s.wsState = WsState.opened := h
      rcases ih h' with h1 | h1 <;> rw [hidle] at h1 <;> exact Status.noConfusion h1
    | wsOpened hat hcon =>
      intro _
      exact Or.inl rfl
    | wsMessage m hopen =>
      intro _
      rcases onmessage_status_cases m _ with h1 | h1 | h1
      · rw [h1]; exact ih hopen
      · exact Or.inl h1
      · exact Or.inr h1
    | wsError hat =>
      intro h
      exact absurd h (by simp [onerror])
    | wsClosed captured hat =>
      intro h
      exact absurd h (by simp [onclose])
    | stopClick =>
      intro h
      exact absurd h (by simp [disconnect])
    | resetClick hne =>
      intro h
      rw [(resetAction_status_wsState _).1]
      rw [(resetAction_status_wsState _).2] at h
      exact ih h
    | tick blobOk b64 hl =>
      intro h
      rw [(captureTick_status_wsState _ blobOk b64).1]
      exact ih (by rw [← (captureTick_status_wsState _ blobOk b64).2]; exact h)

/-- C5, counterexample: for the concrete classification message `msgCalm`,
    the handler's update sequence applies the rate-metric (`fps`) update
    strictly *before* the `faceDetected` flag update — the flag is not
    applied before every other derived-state update, as the claim requires. -/
theorem c5_counterexample :
    (messageEffects (Inbound.parsed msgCalm)).findIdx isFpsUpdate <
    (messageEffects (Inbound.parsed msgCalm)).findIdx isFlagUpdate := by
  decide

/-- C5, amended: in every reachable state, Live and NoSignal are mutually
    exclusive and one of them holds whenever the connection is open; each
    inbound classification message drives the Live/NoSignal choice strictly
    by its `faceDetected` flag, and applies that flag before the
    classification fields and History — but the rate metric (`fps`) is
    updated before the flag, not after it. -/
theorem c5_amended (s : ComponentState) (d : MsgData) (hr : Reachable s)
    (hk : ¬(d.type = some "keepalive" ∨ d.type = some "pong")) :
    ¬(s.status = Status.live ∧ s.status = Status.noFace) ∧
    (s.wsState = WsState.opened → s.status = Status.live ∨ s.status = Status.noFace) ∧
    (onmessage (Inbound.parsed d) s).status =
      (if truthyB d.face_detected = true then Status.live else Status.noFace) ∧
    (onmessage (Inbound.parsed d) s).faceDetected = truthyB d.face_detected ∧
    (∃ rest, messageEffects (Inbound.parsed d) =
      Effect.setFps (orZero d.fps) ::
      Effect.setFaceDetected (truthyB d.face_detected) ::
      Effect.setStatus
        (if truthyB d.face_detected = true then Status.live else Status.noFace) ::
      rest) := by
  refine ⟨?_, reachable_open_status hr, ?_, ?_, ?_⟩
  · rintro ⟨h1, h2⟩
    rw [h1] at h2
    exact Status.noConfusion h2
  · by_cases hf : truthyB d.face_detected = false
    · rw [onmessage_noface s d hk hf, if_neg (by simp [hf])]
    · have hf' := bool_true_of_not_false hf
      rw [if_pos hf']
      by_cases he : truthyS d.emotion = true
      · rw [onmessage_face_emotion s d hk hf' he]
      · have he' : truthyS d.emotion = false := by
          cases hb : truthyS d.emotion
          · rfl
          · exact absurd hb he
        rw [onmessage_face_noemotion s d hk hf' he']
  · by_cases hf : truthyB d.face_detected = false
    · rw [onmessage_noface s d hk hf, hf]
    · have hf' := bool_true_of_not_false hf
      rw [hf']
      by_cases he : truthyS d.emotion = true
      · rw [onmessage_face_emotion s d hk hf' he]
      · have he' : truthyS d.emotion = false := by
          cases hb : truthyS d.emotion
          · rfl
          · exact absurd hb he
        rw [onmessage_face_noemotion s d hk hf' he']
  · simp only [messageEffects]
    rw [if_neg hk]
    by_cases hf : truthyB d.face_detected = false
    · rw [if_pos hf, hf, if_neg (by simp [hf])]
      exact ⟨[], rfl⟩
    · have hf' := bool_true_of_not_false hf
      rw [if_neg (by simp [hf']), hf', if_pos rfl]
      by_cases he : truthyS d.emotion = true
      · rw [if_pos he]
        exact ⟨_, rfl⟩
      · have he' : truthyS d.emotion = false := by
          cases hb : truthyS d.emotion
          · rfl
          · exact absurd hb he
        rw [if_neg (by simp [he'])]
        exact ⟨[], rfl⟩

/-- C5 witness: the amended statement at the reachable just-opened state and
    the concrete classification message `msgCalm`. -/
theorem c5_amended_witness :
    Reachable stateAfterOpen ∧
    (¬(msgCalm.type = some "keepalive" ∨ msgCalm.type = some "pong")) ∧
    (¬(stateAfterOpen.status = Status.live ∧ stateAfterOpen.status = Status.noFace) ∧
     (stateAfterOpen.wsState = WsState.opened →
       stateAfterOpen.status = Status.live ∨ stateAfterOpen.status = Status.noFace) ∧
     (onmessage (Inbound.parsed msgCalm) stateAfterOpen).status =
       (if truthyB msgCalm.face_detected = true then Status.live else Status.noFace) ∧
     (onmessage (Inbound.parsed msgCalm) stateAfterOpen).faceDetected =
       truthyB msgCalm.face_detected ∧
     (∃ rest, messageEffects (Inbound.parsed msgCalm) =
       Effect.setFps (orZero msgCalm.fps) ::
       Effect.setFaceDetected (truthyB msgCalm.face_detected) ::
       Effect.setStatus
         (if truthyB msgCalm.face_detected = true then Status.live else Status.noFace) ::
       rest)) := by
  have hr : Reachable stateAfterOpen :=
    Reachable.step (Reachable.step Reachable.init (Step.startOk initialState rfl))
      (Step.wsOpened (connectCameraOk initialState) rfl rfl)
  exact ⟨hr, by decide, c5_amended stateAfterOpen msgCalm hr (by decide)⟩

/-! ## C9 — aggregate statistics -/

/-- The stress fold with an arbitrary accumulator is the accumulator plus the
    sum of the stresses. -/
theorem foldl_add_stress (tl : List Entry) (a : ℚ) :
    tl.foldl (fun acc b => acc + b.stress) a = a + (tl.map Entry.stress).sum := by
  induction tl generalizing a with
  | nil => simp
  | cons x xs ih =>
    rw [List.foldl_cons, ih, List.map_cons, List.sum_cons, add_assoc]

/-- The source's `reduce` is the sum of the stress scores. -/
theorem stressSum_eq (tl : List Entry) :
    stressSum tl = (tl.map Entry.stress).sum := by
  unfold stressSum
  rw [foldl_add_stress, zero_add]

/-- Bumping a key increments exactly that key's tally. -/
theorem cnt_bump_self (m : List (String × Nat)) (k : String) :
    cnt (bump m k) k = cnt m k + 1 := by
  induction m with
  | nil => simp [bump, cnt]
  | cons p rest ih =>
    obtain ⟨k', v⟩ := p
    by_cases hk : k' = k
    · subst hk
      simp [bump, cnt]
    · simp [bump, cnt, hk, ih]

/-- Bumping a key leaves every other key's tally unchanged. -/
theorem cnt_bump_of_ne (m : List (String × Nat)) (k0 k : String) (h : ¬ k0 = k) :
    cnt (bump m k0) k = cnt m k := by
  induction m with
  | nil => simp [bump, cnt, h]
  | cons p rest ih =>
    obtain ⟨k', v⟩ := p
    have h' : ¬ k = k0 := fun he => h he.symm
    by_cases hk : k' = k0
    · have hk2 : ¬ k' = k := by rw [hk]; exact h
      simp [bump, cnt, hk, hk2, h]
    · by_cases hk2 : k' = k <;> simp [bump, cnt, hk, hk2, h', ih]

/-- Bumping a present key does not change the key sequence. -/
theorem keys_bump_of_keyIn (m : List (String × Nat)) (k : String)
    (h : keyIn m k = true) :
    (bump m k).map Prod.fst = m.map Prod.fst := by
  induction m with
  | nil => simp [keyIn] at h
  | cons p rest ih =>
    obtain ⟨k', v⟩ := p
    by_cases hk : k' = k
    · subst hk
      simp [bump]
    · have h' : keyIn rest k = true := by
        simpa [keyIn, hk] using h
      simp [bump, hk, ih h']

/-- Bumping an absent key appends it at the end of the key sequence. -/
theorem keys_bump_of_not_keyIn (m : List (String × Nat)) (k : String)
    (h : keyIn m k = false) :
    (bump m k).map Prod.fst = m.map Prod.fst ++ [k] := by
  induction m with
  | nil => simp [bump]
  | cons p rest ih =>
    obtain ⟨k', v⟩ := p
    by_cases hk : k' = k
    · subst hk
      simp [keyIn] at h
    · have h' : keyIn rest k = false := by
        simpa [keyIn, hk] using h
      simp [bump, hk, ih h']

/-- A key is in the tally exactly when it is among the key sequence. -/
theorem keyIn_iff_mem (m : List (String × Nat)) (k : String) :
    keyIn m k = true ↔ k ∈ m.map Prod.fst := by
  induction m with
  | nil => simp [keyIn]
  | cons p rest ih =>
    obtain ⟨k', v⟩ := p
    by_cases hk : k' = k
    · subst hk
      simp [keyIn]
    · simp [keyIn, hk, ih]
      intro h
      exact absurd h.symm hk

/-- With nodup keys, membership of a pair determines the tally lookup. -/
theorem cnt_of_mem (m : List (String × Nat)) (k : String) (v : Nat)
    (hnd : (m.map Prod.fst).Nodup) (hm : (k, v) ∈ m) : cnt m k = v := by
  induction m with
  | nil => cases hm
  | cons p rest ih =>
    obtain ⟨k', v'⟩ := p
    simp only [List.map_cons, List.nodup_cons] at hnd
    rcases List.mem_cons.mp hm with h | h
    · cases h
      simp [cnt]
    · have hk : ¬ k' = k := by
        intro he
        have hmem : k ∈ List.map Prod.fst rest := List.mem_map.mpr ⟨(k, v), h, rfl⟩
        rw [← he] at hmem
        exact hnd.1 hmem
      simp [cnt, hk]
      exact ih hnd.2 h

/-- Every key of the key sequence has a pair in the tally. -/
theorem exists_of_mem_keys (m : List (String × Nat)) (k : String)
    (h : k ∈ m.map Prod.fst) : ∃ v, (k, v) ∈ m := by
  rcases List.mem_map.mp h with ⟨p, hp, he⟩
  exact ⟨p.2, by rw [show (k, p.2) = p from by rw [← he]]; exact hp⟩

/-- The first-occurrence index of a member is within the list. -/
theorem firstIdx_lt_length (x : String) (L : List String) (h : x ∈ L) :
    firstIdx x L < L.length := by
  induction L with
  | nil => cases h
  | cons y ys ih =>
    by_cases hy : y = x
    · simp [firstIdx, hy]
    · rcases List.mem_cons.mp h with h1 | h1
      · exact absurd h1.symm hy
      · simp only [firstIdx, if_neg hy, List.length_cons]
        exact Nat.succ_lt_succ (ih h1)

/-- The first-occurrence index ignores a suffix when the element occurs in
    the prefix. -/
theorem firstIdx_append_left (x : String) (p q : List String) (h : x ∈ p) :
    firstIdx x (p ++ q) = firstIdx x p := by
  induction p with
  | nil => cases h
  | cons y ys ih =>
    by_cases hy : y = x
    · simp [firstIdx, hy]
    · rcases List.mem_cons.mp h with h1 | h1
      · exact absurd h1.symm hy
      · have h2 := ih h1
        simp only [List.cons_append, firstIdx, if_neg hy, List.append_eq]
        omega

/-- The first-occurrence index skips a prefix not containing the element. -/
theorem firstIdx_append_right (x : String) (p q : List String) (h : x ∉ p) :
    firstIdx x (p ++ q) = p.length + firstIdx x q := by
  induction p with
  | nil => simp [firstIdx]
  | cons y ys ih =>
    have hy : ¬ y = x := fun he => h (he ▸ List.mem_cons_self y ys)
    have h' : x ∉ ys := fun hm => h (List.mem_cons_of_mem _ hm)
    have h2 := ih h'
    simp only [List.cons_append, firstIdx, if_neg hy, List.length_cons,
      List.append_eq]
    omega

/-- Fold invariant for the JS-object tally: after folding any suffix of the
    label list `R`, the tallies are the occurrence counts, the keys are
    exactly the labels seen, and the keys are ordered by first occurrence in
    `R`. -/
theorem bump_fold_invariant (R : List String) :
    ∀ (rest p : List String) (m : List (String × Nat)),
      R = p ++ rest →
      (∀ k, cnt m k = p.count k) →
      (∀ k, keyIn m k = true ↔ k ∈ p) →
      ((m.map Prod.fst).Pairwise fun a b => firstIdx a R < firstIdx b R) →
      (∀ k, cnt (rest.foldl bump m) k = R.count k) ∧
      (∀ k, keyIn (rest.foldl bump m) k = true ↔ k ∈ R) ∧
      (((rest.foldl bump m).map Prod.fst).Pairwise fun a b =>
        firstIdx a R < firstIdx b R) := by
  intro rest
  induction rest with
  | nil =>
    intro p m hR hcnt hkey hpw
    rw [List.foldl_nil]
    rw [List.append_nil] at hR
    subst hR
    exact ⟨hcnt, hkey, hpw⟩
  | cons x rest' ih =>
    intro p m hR hcnt hkey hpw
    rw [List.foldl_cons]
    have hR' : R = (p ++ [x]) ++ rest' := by
      rw [hR, List.append_assoc, List.singleton_append]
    have hxp : keyIn m x = true ↔ x ∈ p := hkey x
    refine ih (p ++ [x]) (bump m x) hR' ?_ ?_ ?_
    · intro k
      by_cases hx : x = k
      · subst hx
        rw [cnt_bump_self, hcnt, List.count_append]
        simp
      · rw [cnt_bump_of_ne m x k hx, hcnt, List.count_append]
        have hcx : List.count k [x] = 0 := by
          rw [List.count_eq_zero, List.mem_singleton]
          exact fun he => hx he.symm
        omega
    · intro k
      by_cases hin : keyIn m x = true
      · have hxin : x ∈ p := hxp.mp hin
        rw [show keyIn (bump m x) k = true ↔ k ∈ (bump m x).map Prod.fst from
          keyIn_iff_mem _ k, keys_bump_of_keyIn m x hin, ← keyIn_iff_mem, hkey k]
        simp only [List.mem_append, List.mem_singleton]
        constructor
        · exact fun hk => Or.inl hk
        · rintro (hk | hk)
          · exact hk
          · exact hk ▸ hxin
      · have hin' : keyIn m x = false := by
          cases hb : keyIn m x
          · rfl
          · exact absurd hb hin
        rw [keyIn_iff_mem, keys_bump_of_not_keyIn m x hin']
        simp only [List.mem_append, List.mem_singleton]
        rw [← keyIn_iff_mem, hkey k]
    · by_cases hin : keyIn m x = true
      · rw [keys_bump_of_keyIn m x hin]
        exact hpw
      · have hin' : keyIn m x = false := by
          cases hb : keyIn m x
          · rfl
          · exact absurd hb hin
        rw [keys_bump_of_not_keyIn m x hin']
        rw [List.pairwise_append]
        refine ⟨hpw, List.pairwise_singleton _ _, ?_⟩
        intro a ha b hb
        rw [List.mem_singleton.mp hb]
        have hap : a ∈ p := (hkey a).mp ((keyIn_iff_mem m a).mpr ha)
        have hxnp : x ∉ p := fun hx => (by rw [hxp.mpr hx] at hin'; cases hin')
        have h1 : firstIdx a R = firstIdx a p := by
          rw [hR]
          exact firstIdx_append_left a p (x :: rest') hap
        have h2 : firstIdx x R = p.length := by
          rw [hR, firstIdx_append_right x p (x :: rest') hxnp]
          simp [firstIdx]
        rw [h1, h2]
        exact firstIdx_lt_length a p hap

/-- The tally of a timeline: counts are occurrence counts of the labels, keys
    are exactly the labels, and keys are ordered by first occurrence. -/
theorem countsOf_spec (tl : List Entry) :
    (∀ k, cnt (countsOf tl) k = (tl.map Entry.e).count k) ∧
    (∀ k, keyIn (countsOf tl) k = true ↔ k ∈ tl.map Entry.e) ∧
    (((countsOf tl).map Prod.fst).Pairwise fun a b =>
      firstIdx a (tl.map Entry.e) < firstIdx b (tl.map Entry.e)) := by
  have h0 : countsOf tl = (tl.map Entry.e).foldl bump [] := by
    unfold countsOf
    rw [List.foldl_map]
  rw [h0]
  exact bump_fold_invariant (tl.map Entry.e) (tl.map Entry.e) [] []
    (List.nil_append _).symm (fun k => by simp [cnt])
    (fun k => by simp [keyIn]) (by simp)

/-- Inserting into a list never yields the empty list. -/
theorem insertDesc_ne_nil (x : String × Nat) (l : List (String × Nat)) :
    insertDesc x l ≠ [] := by
  cases l with
  | nil => simp [insertDesc]
  | cons y ys => by_cases h : y.2 ≤ x.2 <;> simp [insertDesc, h]

/-- The head of the stable descending sort is the first entry of maximal
    count. -/
theorem sortDesc_head_eq_firstMax (l : List (String × Nat)) :
    (sortDesc l).head? = firstMaxEntry l := by
  induction l with
  | nil => rfl
  | cons x xs ih =>
    show (insertDesc x (sortDesc xs)).head? = _
    cases hs : sortDesc xs with
    | nil =>
      have hxs : firstMaxEntry xs = none := by rw [← ih, hs]; rfl
      simp only [firstMaxEntry, hxs, insertDesc]
      rfl
    | cons y ys =>
      have hxs : firstMaxEntry xs = some y := by rw [← ih, hs]; rfl
      simp only [firstMaxEntry, hxs]
      by_cases hy : y.2 ≤ x.2 <;> simp [insertDesc, hy]

/-- The first-max of a nonempty list exists. -/
theorem firstMaxEntry_cons_ne_none (x : String × Nat) (xs : List (String × Nat)) :
    firstMaxEntry (x :: xs) ≠ none := by
  simp only [firstMaxEntry]
  cases firstMaxEntry xs with
  | none => simp
  | some y => by_cases h : y.2 ≤ x.2 <;> simp [h]

/-- The first entry of maximal count is a member, dominates every count, and
    precedes (in the order relation carried by the list's `Pairwise`
    hypothesis) every other entry of equal count. -/
theorem firstMaxEntry_spec (r : String → String → Prop) :
    ∀ (m : List (String × Nat)), (m.Pairwise fun a b => r a.1 b.1) →
      ∀ p0, firstMaxEntry m = some p0 →
        p0 ∈ m ∧ (∀ q ∈ m, q.2 ≤ p0.2) ∧
        (∀ q ∈ m, q.2 = p0.2 → q.1 = p0.1 ∨ r p0.1 q.1) := by
  intro m
  induction m with
  | nil =>
    intro _ p0 hp
    cases hp
  | cons x xs ih =>
    intro hpw p0 hp
    have hx : ∀ b ∈ xs, r x.1 b.1 := (List.pairwise_cons.mp hpw).1
    have hxs := (List.pairwise_cons.mp hpw).2
    cases hfm : firstMaxEntry xs with
    | none =>
      have hnil : xs = [] := by
        cases xs with
        | nil => rfl
        | cons z zs => exact absurd hfm (firstMaxEntry_cons_ne_none z zs)
      subst hnil
      have hpx : p0 = x := by
        simp only [firstMaxEntry] at hp
        exact (Option.some.inj hp).symm
      subst hpx
      refine ⟨List.mem_cons_self _ _, ?_, ?_⟩
      · intro q hq
        rcases List.mem_cons.mp hq with h1 | h1
        · rw [h1]
        · cases h1
      · intro q hq _
        rcases List.mem_cons.mp hq with h1 | h1
        · exact Or.inl (by rw [h1])
        · cases h1
    | some y =>
      obtain ⟨hymem, hymax, hytie⟩ := ih hxs y hfm
      simp only [firstMaxEntry, hfm] at hp
      by_cases hY : y.2 ≤ x.2
      · rw [if_pos hY] at hp
        have hpx : p0 = x := (Option.some.inj hp).symm
        subst hpx
        refine ⟨List.mem_cons_self _ _, ?_, ?_⟩
        · intro q hq
          rcases List.mem_cons.mp hq with h1 | h1
          · rw [h1]
          · exact le_trans (hymax q h1) hY
        · intro q hq _
          rcases List.mem_cons.mp hq with h1 | h1
          · exact Or.inl (by rw [h1])
          · exact Or.inr (hx q h1)
      · rw [if_neg hY] at hp
        cases hp
        have hxy : x.2 < p0.2 := Nat.lt_of_not_le hY
        refine ⟨List.mem_cons_of_mem x hymem, ?_, ?_⟩
        · intro q hq
          rcases List.mem_cons.mp hq with h1 | h1
          · rw [h1]; exact Nat.le_of_lt hxy
          · exact hymax q h1
        · intro q hq hq2
          rcases List.mem_cons.mp hq with h1 | h1
          · exfalso
            rw [h1] at hq2
            omega
          · exact hytie q h1 hq2

/-- C9: for every non-empty timeline, the session stats are the mean
    `stress` over the buffer (AVG STRESS displays its rounded percentage),
    the buffer length (FRAMES), and as TOP STATE the most frequent label,
    ties broken by the first-encountered label among those of highest count
    in insertion order — all pure functions of the buffer snapshot. -/
theorem c9_aggregate (tl : List Entry) (h : tl ≠ []) :
    avgStress tl = (tl.map Entry.stress).sum / tl.length ∧
    avgStressPct tl = jsRound ((tl.map Entry.stress).sum / tl.length * 100) ∧
    framesCount tl = tl.length ∧
    ∃ lbl, topState tl = some lbl ∧
      lbl ∈ tl.map Entry.e ∧
      (∀ x, (tl.map Entry.e).count x ≤ (tl.map Entry.e).count lbl) ∧
      (∀ x, (tl.map Entry.e).count x = (tl.map Entry.e).count lbl →
        firstIdx lbl (tl.map Entry.e) ≤ firstIdx x (tl.map Entry.e)) := by
  obtain ⟨hcnt, hkey, hpw⟩ := countsOf_spec tl
  have hnd : ((countsOf tl).map Prod.fst).Nodup :=
    hpw.imp fun hab => by
      intro he
      rw [he] at hab
      exact Nat.lt_irrefl _ hab
  refine ⟨?_, ?_, rfl, ?_⟩
  · unfold avgStress
    rw [stressSum_eq]
  · unfold avgStressPct
    rw [stressSum_eq]
  · -- the counts list is nonempty
    have hL : tl.map Entry.e ≠ [] := by
      intro he
      exact h (List.map_eq_nil_iff.mp he)
    obtain ⟨k0, hk0⟩ := List.exists_mem_of_ne_nil _ hL
    have hm : countsOf tl ≠ [] := by
      intro hmn
      have := (hkey k0).mpr hk0
      rw [hmn] at this
      simp [keyIn] at this
    obtain ⟨p0, hfm⟩ : ∃ p0, firstMaxEntry (countsOf tl) = some p0 := by
      cases hc : countsOf tl with
      | nil => exact absurd hc hm
      | cons z zs =>
        cases hf : firstMaxEntry (z :: zs) with
        | none => exact absurd hf (firstMaxEntry_cons_ne_none z zs)
        | some p0 => exact ⟨p0, rfl⟩
    have hpwm : (countsOf tl).Pairwise fun a b =>
        firstIdx a.1 (tl.map Entry.e) < firstIdx b.1 (tl.map Entry.e) :=
      List.Pairwise.of_map Prod.fst (fun _ _ hr => hr) hpw
    obtain ⟨hpmem, hpmax, hptie⟩ :=
      firstMaxEntry_spec (fun a b => firstIdx a (tl.map Entry.e) < firstIdx b (tl.map Entry.e))
        (countsOf tl) hpwm p0 hfm
    have htop : topState tl = some p0.1 := by
      unfold topState
      rw [sortDesc_head_eq_firstMax, hfm]
      rfl
    have hp0cnt : cnt (countsOf tl) p0.1 = p0.2 := by
      refine cnt_of_mem (countsOf tl) p0.1 p0.2 hnd ?_
      rw [show (p0.1, p0.2) = p0 from rfl]
      exact hpmem
    have hp0L : (tl.map Entry.e).count p0.1 = p0.2 := by
      rw [← hcnt p0.1]
      exact hp0cnt
    have hp0mem : p0.1 ∈ tl.map Entry.e :=
      (hkey p0.1).mp ((keyIn_iff_mem _ p0.1).mpr (List.mem_map_of_mem Prod.fst hpmem))
    refine ⟨p0.1, htop, hp0mem, ?_, ?_⟩
    · intro x
      by_cases hx : x ∈ tl.map Entry.e
      · obtain ⟨v, hv⟩ := exists_of_mem_keys (countsOf tl) x ((keyIn_iff_mem _ x).mp ((hkey x).mpr hx))
        have hvc : cnt (countsOf tl) x = v := cnt_of_mem _ x v hnd hv
        have hxL : (tl.map Entry.e).count x = v := by rw [← hcnt x]; exact hvc
        rw [hxL, hp0L]
        exact hpmax (x, v) hv
      · rw [List.count_eq_zero.mpr hx]
        exact Nat.zero_le _
    · intro x hxc
      by_cases hxp : x = p0.1
      · rw [hxp]
      · have hc0 : 0 < (tl.map Entry.e).count p0.1 := by
          rw [List.count_pos_iff]
          exact hp0mem
        have hxmem : x ∈ tl.map Entry.e := by
          rw [← List.count_pos_iff, hxc]
          exact hc0
        obtain ⟨v, hv⟩ := exists_of_mem_keys (countsOf tl) x ((keyIn_iff_mem _ x).mp ((hkey x).mpr hxmem))
        have hvc : (tl.map Entry.e).count x = v := by
          rw [← hcnt x]
          exact cnt_of_mem _ x v hnd hv
        have hveq : v = p0.2 := by
          rw [← hvc, hxc, hp0L]
        rcases hptie (x, v) hv hveq with h1 | h1
        · exact absurd h1 hxp
        · exact Nat.le_of_lt h1

/-- C9 witness: the aggregate statement at a concrete three-entry timeline. -/
theorem c9_aggregate_witness :
    sampleTimeline ≠ [] ∧
    (avgStress sampleTimeline = (sampleTimeline.map Entry.stress).sum / sampleTimeline.length ∧
     avgStressPct sampleTimeline =
       jsRound ((sampleTimeline.map Entry.stress).sum / sampleTimeline.length * 100) ∧
     framesCount sampleTimeline = sampleTimeline.length ∧
     ∃ lbl, topState sampleTimeline = some lbl ∧
       lbl ∈ sampleTimeline.map Entry.e ∧
       (∀ x, (sampleTimeline.map Entry.e).count x ≤ (sampleTimeline.map Entry.e).count lbl) ∧
       (∀ x, (sampleTimeline.map Entry.e).count x = (sampleTimeline.map Entry.e).count lbl →
         firstIdx lbl (sampleTimeline.map Entry.e) ≤ firstIdx x (sampleTimeline.map Entry.e))) :=
  ⟨by decide, c9_aggregate sampleTimeline (by decide)⟩

end NeoPulse
